import Mathlib

/-!
Verification development for the `vfxdirs` repository (sources under
`src/vfxdirs/`: `keys.py`, `context.py`, `config.py`, `api.py`).

The Python code is shallowly embedded:

* Python `str` values become Lean `String`s; `str.strip()` / `str.lower()`
  are embedded over `List Char` (`pyStrip`, `pyLower`) with Python's ASCII
  whitespace set and ASCII case folding.
* `pathlib` paths are modelled as rendered POSIX path strings.  The `Path`
  constructor's normalization (dropping empty and `"."` components,
  `Path("") == Path(".")`), `is_absolute` and the `/` join operator are
  embedded by `pathOfString`, `isAbsolutePath` and `pathJoin`.
* Python dicts that only ever undergo construction, lookup, copy and
  `update` (the `paths` and `apps` mappings of the configuration tree) are
  modelled extensionally as lookup functions `String → Option _`; dict
  equality in Python is exactly extensional equality of lookups.
* `tomllib`'s output (`Any` values fed to `from_mapping`) is modelled by the
  inductive `Toml`; fallible code returns `Except String _`, the error
  string being the `VFXDirsConfigError` message.
* The mutation behaviour of `merged` (claim about inputs never being
  mutated) is modelled separately in namespace `Imp` with an explicit heap
  of mutable dict cells and allocation/write steps that follow the code of
  `AppConfig.merged` / `VFXDirsConfig.merged` line by line.
-/

/-! ## Python string primitives -/

/-- Python's ASCII whitespace set for `str.strip()`:
space, tab, newline, carriage return, vertical tab, form feed. -/
def isPySpace (c : Char) : Bool :=
  c.toNat == 32 || c.toNat == 9 || c.toNat == 10 ||
  c.toNat == 13 || c.toNat == 11 || c.toNat == 12

/-- Embedding of Python `str.strip()` (no argument): drop leading and
trailing whitespace. -/
def pyStripList (l : List Char) : List Char :=
  List.rdropWhile isPySpace (List.dropWhile isPySpace l)

/-- String-level wrapper of `pyStripList`. -/
def pyStrip (s : String) : String :=
  ⟨pyStripList s.data⟩

/-- Embedding of Python `str.lower()` restricted to ASCII; `Char.toLower`
maps exactly the range A–Z to a–z and is the identity elsewhere. -/
def pyLower (s : String) : String :=
  ⟨s.data.map Char.toLower⟩

/-! ## POSIX path model (`pathlib.Path` as rendered strings)

`PurePosixPath` parses a string into (is-absolute, components), dropping
empty components and `"."` components, and renders back with `"/"` as
separator (the empty relative path rendering as `"."`). -/

/-- Split a character list at `/` separators (Python `s.split("/")`). -/
def splitSlash : List Char → List (List Char)
  | [] => [[]]
  | c :: rest =>
      match splitSlash rest with
      | [] => [[c]]
      | cur :: more =>
          if c = '/' then [] :: cur :: more else (c :: cur) :: more

/-- Join path components with `/` separators. -/
def joinSlash : List String → String
  | [] => ""
  | p :: rest => rest.foldl (fun acc q => acc ++ "/" ++ q) p

/-- Component list of a path string, as `pathlib` parses it. -/
def pathParts (s : String) : List String :=
  ((splitSlash s.data).map (fun l => (⟨l⟩ : String))).filter
    (fun c => c ≠ "" && c ≠ ".")

/-- Embedding of `Path.is_absolute()` for POSIX strings: a leading `/`. -/
def isAbsolutePath (s : String) : Bool :=
  match s.data with
  | '/' :: _ => true
  | _ => false

/-- Render a parsed path back to its string form, as `str(Path(...))`. -/
def renderPath (abs : Bool) (parts : List String) : String :=
  if abs then "/" ++ joinSlash parts
  else if parts.isEmpty then "." else joinSlash parts

/-- Embedding of the `Path` constructor on a single string argument:
`str(Path(s))`. -/
def pathOfString (s : String) : String :=
  renderPath (isAbsolutePath s) (pathParts s)

/-- Embedding of the `/` join operator: `str(Path(a) / Path(b))`.  When the
right-hand side is absolute it wins, otherwise the components concatenate. -/
def pathJoin (a b : String) : String :=
  if isAbsolutePath b then pathOfString b
  else renderPath (isAbsolutePath a) (pathParts a ++ pathParts b)

/-- Embedding of `Path(p).parent`: drop the last component. -/
def pathParent (p : String) : String :=
  renderPath (isAbsolutePath p) (pathParts p).dropLast

/-! ## Key vocabulary (`keys.py`) -/

/-- Embedding of the `DirKey` string enum from `keys.py`. -/
inductive DirKey where
  | prefs | config | data | cache | logs | temp
  | scripts | plugins | packages
deriving DecidableEq

/-- String value of a `DirKey` member (`StrEnum` value). -/
def DirKey.val : DirKey → String
  | .prefs => "prefs"
  | .config => "config"
  | .data => "data"
  | .cache => "cache"
  | .logs => "logs"
  | .temp => "temp"
  | .scripts => "scripts"
  | .plugins => "plugins"
  | .packages => "packages"

/-- Modelled from the spec: `normalize_key` is imported from
`vfxdirs.keys` by `config.py` but the provided `keys.py` does not contain
its definition.  The spec states that key-like values are compared "by
normalized string value (case-insensitive, trimmed)" and that
normalization is "trim + case-fold", so `normalize_key` is modelled as
Python `str(key).strip().lower()`; a `DirKey` contributes its `StrEnum`
string value (`DirKey.val`). -/
def normalize_key (s : String) : String :=
  pyLower (pyStrip s)

/-- Embedding of `_normalize_app_id` from `config.py`: strip + lowercase,
rejecting an identifier that is empty after trimming. -/
def normalizeAppId (app_id : String) : Except String String :=
  let raw := pyLower (pyStrip app_id)
  if raw = "" then .error "app_id cannot be empty" else .ok raw

/-! ## Configuration data model (`config.py`)

The `paths` mapping of an `AppConfig` and the `apps` mapping of a
`VFXDirsConfig` are Python dicts behind `MappingProxyType` views, used only
through lookup, copy and `update`; they are modelled extensionally as
lookup functions.  The `__post_init__` key normalization is a no-op on
every mapping the library itself constructs (parsing and merging always
store normalized keys), so model values correspond to the reachable Python
values. -/

/-- Embedding of the `InstallOverride` frozen dataclass. -/
@[ext] structure InstallOverride where
  root : Option String
  executable : Option String
deriving DecidableEq

/-- Embedding of the `AppConfig` frozen dataclass; `paths` maps normalized
keys to path strings. -/
@[ext] structure AppConfig where
  base : Option String
  install : InstallOverride
  paths : String → Option String

/-- Embedding of the `VFXDirsConfig` frozen dataclass; `apps` maps
normalized app identifiers to `AppConfig`s. -/
@[ext] structure VFXDirsConfig where
  apps : String → Option AppConfig

/-- Effect on lookups of `d = dict(lo); d.update(hi)`: a key present in
`hi` wins, otherwise `lo`'s entry survives. -/
def dictUpdated {α : Type} (lo hi : String → Option α) : String → Option α :=
  fun k =>
    match hi k with
    | some v => some v
    | none => lo k

/-- Embedding of `InstallOverride.merged`: each field independently takes
`higher`'s value when it is not `None`, else `self`'s. -/
def InstallOverride.merged (self higher : InstallOverride) : InstallOverride :=
  { root := match higher.root with
      | some r => some r
      | none => self.root,
    executable := match higher.executable with
      | some e => some e
      | none => self.executable }

/-- Embedding of `AppConfig.merged`: `base` from `higher` when present,
`install` merged field-wise, `paths` as copy-of-`self` updated with
`higher`'s entries. -/
def AppConfig.merged (self higher : AppConfig) : AppConfig :=
  { base := match higher.base with
      | some b => some b
      | none => self.base,
    install := self.install.merged higher.install,
    paths := dictUpdated self.paths higher.paths }

/-- Embedding of `AppConfig.path_override`: look the normalized key up in
`paths`. -/
def AppConfig.path_override (self : AppConfig) (key : String) : Option String :=
  self.paths (normalize_key key)

/-- Embedding of `VFXDirsConfig.merged`.  `None` for `higher` returns
`self` unchanged; otherwise the apps dict is the copy of `self.apps`
updated, for each app id of `higher`, with either `higher`'s app (id absent
in `self`) or the recursive `AppConfig` merge (id present in both). -/
def VFXDirsConfig.merged (self : VFXDirsConfig) (higher : Option VFXDirsConfig) :
    VFXDirsConfig :=
  match higher with
  | none => self
  | some hi =>
      ⟨fun appId =>
        match self.apps appId, hi.apps appId with
        | some lo, some h => some (lo.merged h)
        | some lo, none => some lo
        | none, some h => some h
        | none, none => none⟩

/-- Embedding of `VFXDirsConfig.app`: normalize the queried identifier
(which may raise for an empty identifier) and look it up. -/
def VFXDirsConfig.app (self : VFXDirsConfig) (app_id : String) :
    Except String (Option AppConfig) :=
  (normalizeAppId app_id).map (fun nid => self.apps nid)

/-- A `VFXDirsConfig` with no apps (`VFXDirsConfig()`). -/
def emptyConfig : VFXDirsConfig := ⟨fun _ => none⟩

/-! ## Path string expansion (`config.py` lines 18–67)

`_expand_env_vars` substitutes the regex `\$(\w+)|\$\{([^}]+)\}` left to
right without rescanning replacements (`re.sub` with a replacement
function).  The scan is embedded as a single left-to-right pass with an
explicit scanner state: outside any reference, after `$` collecting word
characters, or inside `${...}` collecting up to the first `}`.  A
reference whose variable is missing from the environment is emitted
verbatim (`env.get(var, match.group(0))`); a `$` that starts no match
(no word character and no brace follows, or `${}` / an unclosed brace)
stays verbatim. -/

/-- Python regex `\w` restricted to ASCII: letters, digits, underscore. -/
def wordChar (c : Char) : Bool :=
  c.isAlphanum || c == '_'

/-- Scanner state for the `_expand_env_vars` pass. -/
inductive ScanSt where
  | norm
  | dollar (acc : List Char)
  | brace (acc : List Char)
deriving DecidableEq

/-- Text emitted when a `$word` candidate ends: an empty accumulator was a
lone `$` (no regex match), otherwise substitute the variable or emit the
match verbatim. -/
def dollarRepl (env : String → Option String) (acc : List Char) : List Char :=
  if acc = [] then ['$']
  else
    match env ⟨acc⟩ with
    | some v => v.data
    | none => '$' :: acc

/-- Text emitted when `${acc}` closes with a nonempty accumulator:
substitute the variable or emit the whole match verbatim. -/
def braceRepl (env : String → Option String) (acc : List Char) : List Char :=
  match env ⟨acc⟩ with
  | some v => v.data
  | none => '$' :: '{' :: (acc ++ ['}'])

/-- One scanner step of the `_expand_env_vars` pass. -/
def scanStep (env : String → Option String) :
    ScanSt × List Char → Char → ScanSt × List Char
  | (.norm, out), c =>
      if c = '$' then (.dollar [], out) else (.norm, out ++ [c])
  | (.dollar acc, out), c =>
      if acc = [] ∧ c = '{' then (.brace [], out)
      else if wordChar c then (.dollar (acc ++ [c]), out)
      else if c = '$' then (.dollar [], out ++ dollarRepl env acc)
      else (.norm, out ++ dollarRepl env acc ++ [c])
  | (.brace acc, out), c =>
      if c = '}' then
        if acc = [] then (.norm, out ++ ['$', '{', '}'])
        else (.norm, out ++ braceRepl env acc)
      else (.brace (acc ++ [c]), out)

/-- Pending text at end of input: an unfinished `$word` candidate is
resolved, an unclosed `${...}` never matched and stays verbatim. -/
def flushScan (env : String → Option String) : ScanSt → List Char
  | .norm => []
  | .dollar acc => dollarRepl env acc
  | .brace acc => '$' :: '{' :: acc

/-- Embedding of `_expand_env_vars` over character lists. -/
def expandEnvList (env : String → Option String) (l : List Char) : List Char :=
  let res := l.foldl (scanStep env) (ScanSt.norm, [])
  res.2 ++ flushScan env res.1

/-- Embedding of `_expand_env_vars` from `config.py`. -/
def expandEnvVars (env : String → Option String) (s : String) : String :=
  ⟨expandEnvList env s.data⟩

/-- Embedding of `_expand_user` from `config.py`: a lone `~` becomes the
home directory, a leading `~/` or `~\` is replaced by the home directory
followed by `value[1:]` (the separator and the tail). -/
def expandUser (home : String) (value : String) : String :=
  if value = "~" then home
  else
    match value.data with
    | '~' :: '/' :: rest => home ++ ⟨'/' :: rest⟩
    | '~' :: '\\' :: rest => home ++ ⟨'\\' :: rest⟩
    | _ => value

/-! ## Raw configuration input and parsing (`config.py` lines 46–67, 188–282)

`from_mapping` receives the already-decoded TOML data (nested Python
values).  `Toml` covers the shapes the code distinguishes: strings,
tables, `None`, and any other value carrying its type name (for error
messages) and its truthiness (for the `x or {}` coercions). -/

/-- Raw decoded TOML value fed to `from_mapping`. -/
inductive Toml where
  | str (s : String)
  | table (entries : List (String × Toml))
  | pynone
  | other (tyName : String) (truthy : Bool)

/-- Python truthiness of a raw value (`bool(x)`). -/
def Toml.isTruthy : Toml → Bool
  | .str s => s ≠ ""
  | .table entries => !entries.isEmpty
  | .pynone => false
  | .other _ t => t

/-- Python `type(x).__name__` for the error message of `_parse_path`. -/
def Toml.typeName : Toml → String
  | .str _ => "str"
  | .table _ => "dict"
  | .pynone => "NoneType"
  | .other n _ => n

/-- Dict lookup on a decoded table (`tbl.get(k)` / `k in tbl`); decoded
tables have unique keys, so the first match is the entry. -/
def tget (entries : List (String × Toml)) (k : String) : Option Toml :=
  (entries.find? (fun e => e.1 = k)).map (fun e => e.2)

/-- The `x or {}` coercion applied to the `install` and `paths`
sub-tables: a falsy value is replaced by an empty table. -/
def pyOrEmptyTable (t : Toml) : Toml :=
  if t.isTruthy then t else .table []

/-- Embedding of `_parse_path`: reject non-strings and
empty-after-trimming strings, then expand `~`, expand environment
variables, and join a non-absolute result under `base_dir`. -/
def parsePath (env : String → Option String) (home base_dir : String)
    (whereS : String) (raw : Toml) : Except String String :=
  match raw with
  | .str s =>
      let raw_str := pyStrip s
      if raw_str = "" then .error (whereS ++ " cannot be an empty path")
      else
        let expanded := expandEnvVars env (expandUser home raw_str)
        let p := pathOfString expanded
        if isAbsolutePath p then .ok p else .ok (pathJoin base_dir p)
  | t => .error (whereS ++ " must be a string path but got " ++ t.typeName)

/-- Optional path field of a table (`"f" in tbl and tbl["f"] is not None`
guarding a `_parse_path` call). -/
def parseOptPathField (env : String → Option String) (home base_dir : String)
    (whereS : String) (v : Option Toml) : Except String (Option String) :=
  match v with
  | none => .ok none
  | some .pynone => .ok none
  | some raw => (parsePath env home base_dir whereS raw).map some

/-- The per-key `paths` loop of `from_mapping`: parse each value with the
unnormalized key in the error location, store it under the normalized key
(a later duplicate-normalizing key overwrites an earlier one). -/
def parsePathEntries (env : String → Option String) (home base_dir appId : String) :
    List (String × Toml) → (String → Option String) →
    Except String (String → Option String)
  | [], acc => .ok acc
  | (k, v) :: rest, acc =>
      match parsePath env home base_dir ("apps." ++ appId ++ ".paths." ++ k) v with
      | .error e => .error e
      | .ok p =>
          parsePathEntries env home base_dir appId rest
            (fun q => if q = normalize_key k then some p else acc q)

/-- The `install` block of the per-app loop: the (already `or {}`
coerced) sub-table must be a table; its optional `root` and `executable`
are parsed in order. -/
def parseInstall (env : String → Option String) (home base_dir appId : String)
    (installTbl : Toml) : Except String InstallOverride :=
  match installTbl with
  | .table ies => do
      let instRoot ← parseOptPathField env home base_dir
        ("apps." ++ appId ++ ".install.root") (tget ies "root")
      let instExe ← parseOptPathField env home base_dir
        ("apps." ++ appId ++ ".install.executable") (tget ies "executable")
      .ok { root := instRoot, executable := instExe }
  | _ => .error ("`apps." ++ appId ++ ".install` must be a TOML table or object")

/-- The `paths` block of the per-app loop: the (already `or {}` coerced)
sub-table must be a table; its entries are parsed in order. -/
def parsePathsTbl (env : String → Option String) (home base_dir appId : String)
    (pathsTbl : Toml) : Except String (String → Option String) :=
  match pathsTbl with
  | .table pes => parsePathEntries env home base_dir appId pes (fun _ => none)
  | _ => .error ("`apps." ++ appId ++ ".paths` must be a TOML table or object")

/-- The body of `from_mapping`'s per-app loop: shape-check the app table,
parse `base`, the `install` pair and the `paths` table, in the code's
order. -/
def parseOneApp (env : String → Option String) (home base_dir appId : String) :
    Toml → Except String AppConfig
  | .table tbl => do
      let base ← parseOptPathField env home base_dir
        ("apps." ++ appId ++ ".base") (tget tbl "base")
      let install ← parseInstall env home base_dir appId
        (pyOrEmptyTable ((tget tbl "install").getD (.table [])))
      let paths ← parsePathsTbl env home base_dir appId
        (pyOrEmptyTable ((tget tbl "paths").getD (.table [])))
      .ok { base := base, install := install, paths := paths }
  | _ => .error ("`apps." ++ appId ++ "` must be a TOML table or object")

/-- The `for raw_app_id, raw_app_tbl in raw_apps.items()` loop of
`from_mapping`: normalize the identifier (which may raise), parse the app,
store it under the normalized identifier. -/
def parseApps (env : String → Option String) (home base_dir : String) :
    List (String × Toml) → (String → Option AppConfig) →
    Except String (String → Option AppConfig)
  | [], acc => .ok acc
  | (rid, t) :: rest, acc => do
      let appId ← normalizeAppId rid
      let cfg ← parseOneApp env home base_dir appId t
      parseApps env home base_dir rest
        (fun q => if q = appId then some cfg else acc q)

/-- Embedding of `VFXDirsConfig.from_mapping`.  The environment mapping
and home directory that the code obtains from the supplied `env` /
`Context` are passed explicitly.  The root must be a table; a missing or
`None` `apps` entry means no apps; `apps` itself must be a table. -/
def fromMapping (env : String → Option String) (home base_dir : String)
    (data : Toml) : Except String VFXDirsConfig :=
  match data with
  | .table es =>
      let rawApps : Toml :=
        match (tget es "apps").getD (.table []) with
        | .pynone => .table []
        | v => v
      match rawApps with
      | .table appEs =>
          (parseApps env home base_dir appEs (fun _ => none)).map
            (fun f => ⟨f⟩)
      | _ => .error "`apps` must be a TOML table or object"
  | _ => .error "Config root must be a TOML table or object"

/-- Success test for an `Except` result. -/
def exceptIsOk {ε α : Type} : Except ε α → Bool
  | .ok _ => true
  | .error _ => false

/-! ## Context construction (`context.py`)

`Context.from_env` is a pure function of the environment snapshot, the OS
tag and the process-probed fallbacks (`Path.home()`, `Path.cwd()`,
`tempfile.gettempdir()`), which are passed explicitly; the claims under
verification always fix the OS tag, which the code accepts as the
`os_name` override. -/

/-- The closed OS tag set (`OSName` literal type). -/
inductive OSName where
  | windows | macos | linux
deriving DecidableEq

/-- Embedding of the `Context` frozen dataclass. -/
@[ext] structure Context where
  os : OSName
  env : String → Option String
  home : String
  cwd : String
  temp_dir : String
  config_home : String
  data_home : String
  cache_home : String
  install_roots : List String

/-- Embedding of `_home_from_env`: the OS-conventional variable if set and
truthy (`Path(value) if value else Path.home()`), else the process's own
home. -/
def homeFromEnv (osName : OSName) (env : String → Option String)
    (pathHome : String) : String :=
  let value := if osName = .windows then env "USERPROFILE" else env "HOME"
  match value with
  | some v => if v ≠ "" then pathOfString v else pathHome
  | none => pathHome

/-- The windows `for key in (...)` loop collecting truthy Program-Files
variables as install roots. -/
def windowsInstallRoots (env : String → Option String) : List String :=
  let roots := (["ProgramFiles", "ProgramW6432", "ProgramFiles(x86)"].filterMap
    (fun key => match env key with
      | some v => if v ≠ "" then some (pathOfString v) else none
      | none => none))
  if roots.isEmpty then ["C:/Program Files"] else roots

/-- Embedding of `Context.from_env`.  `pathHome`, `pathCwd` and `tempDir`
stand for the process probes `Path.home()`, `Path.cwd()` and
`tempfile.gettempdir()`; `osName` is the resolved OS tag. -/
def Context.from_env (env : String → Option String) (osName : OSName)
    (homeOverride cwdOverride : Option String)
    (pathHome pathCwd tempDir : String) : Context :=
  let resolved_home :=
    match homeOverride with
    | some h => h
    | none => homeFromEnv osName env pathHome
  let resolved_cwd :=
    match cwdOverride with
    | some c => c
    | none => pathCwd
  let temp_dir := pathOfString tempDir
  match osName with
  | .linux =>
      { os := .linux, env := env, home := resolved_home, cwd := resolved_cwd,
        temp_dir := temp_dir,
        config_home := pathOfString
          ((env "XDG_CONFIG_HOME").getD (pathJoin resolved_home ".config")),
        data_home := pathOfString
          ((env "XDG_DATA_HOME").getD
            (pathJoin (pathJoin resolved_home ".local") "share")),
        cache_home := pathOfString
          ((env "XDG_CACHE_HOME").getD (pathJoin resolved_home ".cache")),
        install_roots := ["/opt", "/usr/local", "/usr"] }
  | .macos =>
      let library := pathJoin resolved_home "Library"
      { os := .macos, env := env, home := resolved_home, cwd := resolved_cwd,
        temp_dir := temp_dir,
        config_home := pathJoin library "Application Support",
        data_home := pathJoin library "Application Support",
        cache_home := pathJoin library "Caches",
        install_roots := ["/Applications", "/Applications/Utilities"] }
  | .windows =>
      let config_home :=
        match env "APPDATA" with
        | some v =>
            if v ≠ "" then pathOfString v
            else pathJoin (pathJoin resolved_home "AppData") "Roaming"
        | none => pathJoin (pathJoin resolved_home "AppData") "Roaming"
      let cache_home :=
        match env "LOCALAPPDATA" with
        | some v =>
            if v ≠ "" then pathOfString v
            else pathJoin (pathJoin resolved_home "AppData") "Local"
        | none => pathJoin (pathJoin resolved_home "AppData") "Local"
      { os := .windows, env := env, home := resolved_home, cwd := resolved_cwd,
        temp_dir := temp_dir,
        config_home := config_home,
        data_home := config_home,
        cache_home := cache_home,
        install_roots := windowsInstallRoots env }

/-! ## Loading (`config.py` lines 148–176)

File access and the external `tomllib.loads` decoder are collaborators
outside the repository: the filesystem is a partial map from paths to
file text (`none` = the file does not exist, which is also when
`config_path.exists()` is false), and the decoder is a parameter that
either yields decoded data or fails like `tomllib.TOMLDecodeError`. -/

/-- Embedding of `VFXDirsConfig.from_file`: read the file (an absent file
raises), decode it, then validate with `from_mapping` using the file's
containing directory as `base_dir`. -/
def fromFile (fs : String → Option String)
    (tomlLoads : String → Except String Toml)
    (env : String → Option String) (home : String) (path : String) :
    Except String VFXDirsConfig :=
  let config_path := pathOfString path
  match fs config_path with
  | none => .error "file does not exist"
  | some text => do
      let data ← tomlLoads text
      fromMapping env home (pathParent config_path) data

/-- Embedding of `VFXDirsConfig.load`: a non-existent file yields `None`
(no overrides); an existing file is handed to `from_file` and any parse or
validation failure propagates. -/
def loadConfig (fs : String → Option String)
    (tomlLoads : String → Except String Toml)
    (env : String → Option String) (home : String) (path : String) :
    Except String (Option VFXDirsConfig) :=
  let config_path := pathOfString path
  match fs config_path with
  | none => .ok none
  | some _ => (fromFile fs tomlLoads env home path).map some

/-! ## Imperative heap model of merging (for the no-mutation claim)

`AppConfig.merged` and `VFXDirsConfig.merged` are re-embedded with the
mutable dicts living in an explicit heap: `dict(x)` is an allocation,
`d.update(...)` / `d[k] = v` are writes, and the `__post_init__` of a
freshly constructed dataclass allocates the normalized dict behind its
`MappingProxyType` view.  Heap references are indices into a list of
cells; allocation appends, so a reference is "fresh" exactly when it is
`≥` the pre-call heap length. -/

namespace Imp

/-- An `AppConfig` object: immutable fields plus the reference to the dict
behind its `paths` mapping proxy. -/
structure AppConfigI where
  base : Option String
  install : InstallOverride
  pathsRef : Nat
deriving DecidableEq

/-- A `VFXDirsConfig` object: the reference to the dict behind its `apps`
mapping proxy. -/
structure ConfigI where
  appsRef : Nat
deriving DecidableEq

/-- A mutable dict cell: either a `paths` dict or an `apps` dict. -/
inductive Cell where
  | pathsCell (d : List (String × String))
  | appsCell (d : List (String × AppConfigI))
deriving DecidableEq

/-- The heap: allocated cells in allocation order. -/
abbrev Heap := List Cell

/-- Allocate a cell, returning its reference. -/
def halloc (h : Heap) (c : Cell) : Nat × Heap :=
  (h.length, h ++ [c])

/-- Overwrite the cell at a reference. -/
def hwrite (h : Heap) (r : Nat) (c : Cell) : Heap :=
  h.set r c

/-- Read the cell at a reference. -/
def hread (h : Heap) (r : Nat) : Option Cell :=
  h.get? r

/-- Python dict assignment `d[k] = v` on an association list: replace in
place if the key exists, else append. -/
def dinsert {α : Type} (d : List (String × α)) (k : String) (v : α) :
    List (String × α) :=
  if (d.find? (fun e => e.1 = k)).isSome then
    d.map (fun e => if e.1 = k then (k, v) else e)
  else d ++ [(k, v)]

/-- Python `d.get(k)` on an association list. -/
def dlookup {α : Type} (d : List (String × α)) (k : String) : Option α :=
  (d.find? (fun e => e.1 = k)).map (fun e => e.2)

/-- Python `lo.update(hi)` contents: assign every entry of `hi` in order. -/
def dupdate {α : Type} (lo hi : List (String × α)) : List (String × α) :=
  hi.foldl (fun acc e => dinsert acc e.1 e.2) lo

/-- The dict built by `AppConfig.__post_init__`: re-insert every entry
under its normalized key. -/
def normPathKeys (d : List (String × String)) : List (String × String) :=
  d.foldl (fun acc e => dinsert acc (normalize_key e.1) e.2) []

/-- The dict built by `VFXDirsConfig.__post_init__`: re-insert every app
under its normalized identifier; `_normalize_app_id` may raise. -/
def normAppIds (d : List (String × AppConfigI)) :
    Option (List (String × AppConfigI)) :=
  d.foldl
    (fun acc e =>
      match acc with
      | none => none
      | some a =>
          match normalizeAppId e.1 with
          | .ok nid => some (dinsert a nid e.2)
          | .error _ => none)
    (some [])

/-- Heap-level embedding of `AppConfig.merged`:
`merged_paths = dict(self.paths)` allocates a copy,
`merged_paths.update(higher.paths)` writes it, and constructing the result
`AppConfig` allocates the normalized dict of its `__post_init__`. -/
def AppConfigI.mergedI (h : Heap) (self higher : AppConfigI) :
    Option (AppConfigI × Heap) :=
  match hread h self.pathsRef, hread h higher.pathsRef with
  | some (.pathsCell sp), some (.pathsCell hp) =>
      let a1 := halloc h (.pathsCell sp)
      let h2 := hwrite a1.2 a1.1 (.pathsCell (dupdate sp hp))
      let a2 := halloc h2 (.pathsCell (normPathKeys (dupdate sp hp)))
      some
        ({ base := match higher.base with
             | some b => some b
             | none => self.base,
           install := self.install.merged higher.install,
           pathsRef := a2.1 }, a2.2)
  | _, _ => none

/-- The `for app_id, higher_app in higher.apps.items()` loop of
`VFXDirsConfig.merged`: each iteration reads the merged dict, looks the id
up, merges when both sides have the app, and assigns into the merged
dict. -/
def appsLoop (h : Heap) (r1 : Nat) :
    List (String × AppConfigI) → Option Heap
  | [] => some h
  | (appId, hApp) :: rest =>
      match hread h r1 with
      | some (.appsCell cur) =>
          match dlookup cur appId with
          | none =>
              appsLoop (hwrite h r1 (.appsCell (dinsert cur appId hApp))) r1 rest
          | some lApp =>
              match AppConfigI.mergedI h lApp hApp with
              | some (m, h2) =>
                  match hread h2 r1 with
                  | some (.appsCell cur2) =>
                      appsLoop (hwrite h2 r1 (.appsCell (dinsert cur2 appId m)))
                        r1 rest
                  | _ => none
              | none => none
      | _ => none

/-- Heap-level embedding of `VFXDirsConfig.merged`: a `None` higher
returns `self` with the heap untouched; otherwise
`merged_apps = dict(self.apps)` allocates a copy, the loop updates it, and
constructing the result `VFXDirsConfig` allocates the normalized dict of
its `__post_init__`. -/
def ConfigI.mergedI (h : Heap) (self : ConfigI) (higher : Option ConfigI) :
    Option (ConfigI × Heap) :=
  match higher with
  | none => some (self, h)
  | some hi =>
      match hread h self.appsRef, hread h hi.appsRef with
      | some (.appsCell sa), some (.appsCell ha) =>
          let a1 := halloc h (.appsCell sa)
          match appsLoop a1.2 a1.1 ha with
          | some h2 =>
              match hread h2 a1.1 with
              | some (.appsCell finalApps) =>
                  match normAppIds finalApps with
                  | some nd =>
                      let a2 := halloc h2 (.appsCell nd)
                      some ({ appsRef := a2.1 }, a2.2)
                  | none => none
              | _ => none
          | none => none
      | _, _ => none

end Imp

/-! ## Spec-side structural validity

A predicate written from the claim's own list of structural violations
(amended for the `x or {}` coercions), used to compare `from_mapping`'s
acceptance against the spec's rejection cases. -/

/-- A path-valued field must be a string that is nonempty after trimming. -/
def pathFieldOK : Toml → Bool
  | .str s => pyStrip s ≠ ""
  | _ => false

/-- An optional path-valued field: absent or `None` is fine, a present
value must satisfy `pathFieldOK`. -/
def optPathFieldOK : Option Toml → Bool
  | none => true
  | some .pynone => true
  | some v => pathFieldOK v

/-- The `install` sub-table: a falsy value acts as an absent table; a
truthy value must be a table whose optional `root` and `executable` are
valid path fields. -/
def installStructOK (t : Toml) : Bool :=
  if t.isTruthy then
    match t with
    | .table ies =>
        optPathFieldOK (tget ies "root") && optPathFieldOK (tget ies "executable")
    | _ => false
  else true

/-- The `paths` sub-table: a falsy value acts as an absent table; a truthy
value must be a table all of whose values are valid path fields. -/
def pathsStructOK (t : Toml) : Bool :=
  if t.isTruthy then
    match t with
    | .table pes => pes.all (fun e => pathFieldOK e.2)
    | _ => false
  else true

/-- One app entry: a table with a valid optional `base` and valid
`install` and `paths` sub-tables. -/
def appStructOK : Toml → Bool
  | .table tbl =>
      optPathFieldOK (tget tbl "base") &&
      installStructOK ((tget tbl "install").getD (.table [])) &&
      pathsStructOK ((tget tbl "paths").getD (.table []))
  | _ => false

/-- Structural validity of a whole raw configuration, following the
amended rejection list: the root must be a table; an absent or `None`
`apps` entry is treated as "no apps" (the code coerces `apps=None` to
`{}`), while any other non-table value in place of `apps` is a
violation; and every app entry must be valid (with falsy `install` /
`paths` values acting as absent sub-tables). -/
def specStructurallyValid : Toml → Bool
  | .table es =>
      match (tget es "apps").getD (.table []) with
      | .pynone => true
      | .table appEs => appEs.all (fun e => appStructOK e.2)
      | _ => false
  | _ => false

/-! ## Merge algebra: helper lemmas -/

/-- Associativity of the per-app merge, proved field by field. -/
theorem appConfig_merged_assoc (a b c : AppConfig) :
    (a.merged b).merged c = a.merged (b.merged c) := by
  refine AppConfig.ext ?_ ?_ ?_
  · cases hc : c.base <;> cases hb : b.base <;>
      simp [AppConfig.merged, hc, hb]
  · refine InstallOverride.ext ?_ ?_
    · cases hc : c.install.root <;> cases hb : b.install.root <;>
        simp [AppConfig.merged, InstallOverride.merged, hc, hb]
    · cases hc : c.install.executable <;> cases hb : b.install.executable <;>
        simp [AppConfig.merged, InstallOverride.merged, hc, hb]
  · funext k
    cases hc : c.paths k <;> cases hb : b.paths k <;>
      simp [AppConfig.merged, dictUpdated, hc, hb]

/-- C1: for every pair of `AppConfig`s, `lower.merged(higher)` takes
`base` from `higher` when present (else `lower`), takes `install.root` and
`install.executable` independently from `higher` when present (else
`lower`), and its `paths` mapping is the key-wise union in which a key
present in `higher` carries `higher`'s value and a key absent from
`higher` carries exactly `lower`'s entry (so keys only in `lower` survive
unchanged, and no other keys appear). -/
theorem appConfig_merged_fieldwise (lower higher : AppConfig) :
    ((lower.merged higher).base =
      match higher.base with
      | some b => some b
      | none => lower.base)
    ∧ ((lower.merged higher).install.root =
      match higher.install.root with
      | some r => some r
      | none => lower.install.root)
    ∧ ((lower.merged higher).install.executable =
      match higher.install.executable with
      | some e => some e
      | none => lower.install.executable)
    ∧ (∀ k v, higher.paths k = some v → (lower.merged higher).paths k = some v)
    ∧ (∀ k, higher.paths k = none → (lower.merged higher).paths k = lower.paths k) := by
  refine ⟨rfl, rfl, rfl, ?_, ?_⟩
  · intro k v hk
    simp [AppConfig.merged, dictUpdated, hk]
  · intro k hk
    simp [AppConfig.merged, dictUpdated, hk]

/-- Witness for C1 at the spec's own example: `lower` overrides
`{cache: "/a"}`, `higher` overrides `{logs: "/b"}` and a `base`; the merge
keeps `/a`, gains `/b` and takes `higher`'s base. -/
theorem appConfig_merged_fieldwise_witness :
    ((AppConfig.mk none ⟨none, none⟩
        (fun k => if k = "cache" then some "/a" else none)).merged
      (AppConfig.mk (some "/hb") ⟨none, none⟩
        (fun k => if k = "logs" then some "/b" else none))).paths "logs" = some "/b"
    ∧ ((AppConfig.mk none ⟨none, none⟩
        (fun k => if k = "cache" then some "/a" else none)).merged
      (AppConfig.mk (some "/hb") ⟨none, none⟩
        (fun k => if k = "logs" then some "/b" else none))).paths "cache" = some "/a"
    ∧ ((AppConfig.mk none ⟨none, none⟩
        (fun k => if k = "cache" then some "/a" else none)).merged
      (AppConfig.mk (some "/hb") ⟨none, none⟩
        (fun k => if k = "logs" then some "/b" else none))).base = some "/hb" := by
  refine ⟨?_, ?_, ?_⟩
  · exact (appConfig_merged_fieldwise _ _).2.2.2.1 "logs" "/b" (by decide)
  · exact ((appConfig_merged_fieldwise _ _).2.2.2.2 "cache" (by decide)).trans rfl
  · exact (appConfig_merged_fieldwise _ _).1.trans rfl

/-- C2: merging any configuration tree with the empty tree on either side
returns a tree equal to it, and a `None` higher likewise returns the
tree itself. -/
theorem merged_identity (T : VFXDirsConfig) :
    T.merged (some emptyConfig) = T
    ∧ emptyConfig.merged (some T) = T
    ∧ T.merged none = T := by
  refine ⟨?_, ?_, rfl⟩
  · ext appId : 2
    show (match T.apps appId, (none : Option AppConfig) with
          | some lo, some h => some (lo.merged h)
          | some lo, none => some lo
          | none, some h => some h
          | none, none => none) = T.apps appId
    cases T.apps appId <;> rfl
  · ext appId : 2
    show (match (none : Option AppConfig), T.apps appId with
          | some lo, some h => some (lo.merged h)
          | some lo, none => some lo
          | none, some h => some h
          | none, none => none) = T.apps appId
    cases T.apps appId <;> rfl

/-- C3: the tree merge is associative, so folding any number of sources
left-to-right in ascending precedence is independent of grouping. -/
theorem merged_assoc (A B C : VFXDirsConfig) :
    (A.merged (some B)).merged (some C) = A.merged (some (B.merged (some C))) := by
  ext appId : 2
  simp only [VFXDirsConfig.merged]
  cases A.apps appId <;> cases B.apps appId <;> cases C.apps appId <;>
    simp [appConfig_merged_assoc]

/-! ## Normalization: helper lemmas -/

/-- Packing a valid scalar value and unpacking it round-trips. -/
theorem char_toNat_ofNat (n : Nat) (h : n.isValidChar) : (Char.ofNat n).toNat = n := by
  rw [Char.ofNat, dif_pos h]
  simp [Char.ofNatAux, Char.toNat, UInt32.toNat]

/-- An upper-case ASCII letter lowers to code point plus 32. -/
theorem toLower_toNat_of_upper (c : Char) (h : 65 ≤ c.toNat ∧ c.toNat ≤ 90) :
    (Char.toLower c).toNat = c.toNat + 32 := by
  rw [Char.toLower]
  simp only [ge_iff_le]
  rw [if_pos ⟨h.1, h.2⟩]
  exact char_toNat_ofNat _ (Or.inl (by omega))

/-- Outside A–Z, lowering is the identity. -/
theorem toLower_of_not_upper (c : Char) (h : ¬(65 ≤ c.toNat ∧ c.toNat ≤ 90)) :
    Char.toLower c = c := by
  rw [Char.toLower]
  simp only [ge_iff_le]
  rw [if_neg h]

/-- Case folding preserves whitespace-ness. -/
theorem isPySpace_toLower (c : Char) : isPySpace (Char.toLower c) = isPySpace c := by
  by_cases h : 65 ≤ c.toNat ∧ c.toNat ≤ 90
  · have h1 := toLower_toNat_of_upper c h
    have hA : isPySpace (Char.toLower c) = false := by
      simp only [isPySpace, h1, Bool.or_eq_false_iff, beq_eq_false_iff_ne, ne_eq]
      omega
    have hB : isPySpace c = false := by
      simp only [isPySpace, Bool.or_eq_false_iff, beq_eq_false_iff_ne, ne_eq]
      omega
    rw [hA, hB]
  · rw [toLower_of_not_upper c h]

/-- Case folding is idempotent. -/
theorem toLower_idem (c : Char) : Char.toLower (Char.toLower c) = Char.toLower c := by
  by_cases h : 65 ≤ c.toNat ∧ c.toNat ≤ 90
  · have h1 := toLower_toNat_of_upper c h
    apply toLower_of_not_upper
    omega
  · rw [toLower_of_not_upper c h]
    exact toLower_of_not_upper c h

/-- Left-stripping an already left-stripped list is also a no-op after
right-stripping it. -/
theorem dropWhile_rdropWhile_self (p : Char → Bool) (m : List Char)
    (hm : List.dropWhile p m = m) :
    List.dropWhile p (List.rdropWhile p m) = List.rdropWhile p m := by
  obtain ⟨t, ht⟩ := List.rdropWhile_prefix p m
  cases hx : List.rdropWhile p m with
  | nil => rfl
  | cons y ys =>
      rw [hx] at ht
      cases m with
      | nil => simp at ht
      | cons c m' =>
          have hyc : y = c := by
            have h2 : y :: (ys ++ t) = c :: m' := by simpa using ht
            exact (List.cons.injEq _ _ _ _ ▸ h2 : _ ∧ _).1
          have hpc : p c = false := by
            by_contra hb
            rw [Bool.not_eq_false] at hb
            rw [List.dropWhile_cons, if_pos hb] at hm
            have hle : (List.dropWhile p m').length ≤ m'.length :=
              (List.dropWhile_suffix p).length_le
            rw [hm] at hle
            simp at hle
          rw [List.dropWhile_cons, hyc, hpc]
          simp

/-- Stripping is idempotent. -/
theorem pyStripList_idem (l : List Char) :
    pyStripList (pyStripList l) = pyStripList l := by
  unfold pyStripList
  rw [dropWhile_rdropWhile_self isPySpace (List.dropWhile isPySpace l)
    (List.dropWhile_idempotent isPySpace l), List.rdropWhile_idempotent]

/-- Stripping commutes with case folding. -/
theorem pyStripList_map_toLower (l : List Char) :
    pyStripList (l.map Char.toLower) = (pyStripList l).map Char.toLower := by
  have hpf : (isPySpace ∘ Char.toLower) = isPySpace := by
    funext c
    exact isPySpace_toLower c
  unfold pyStripList List.rdropWhile
  rw [List.dropWhile_map, hpf, ← List.map_reverse, List.dropWhile_map, hpf,
    ← List.map_reverse]

/-- The strip-then-casefold core of both normalizations is idempotent. -/
theorem normCore_idem (s : String) :
    pyLower (pyStrip (pyLower (pyStrip s))) = pyLower (pyStrip s) := by
  show (⟨(pyStripList ((pyStripList s.data).map Char.toLower)).map Char.toLower⟩ : String) =
    ⟨(pyStripList s.data).map Char.toLower⟩
  rw [pyStripList_map_toLower, pyStripList_idem, List.map_map]
  congr 1
  exact List.map_congr_left (fun a _ => toLower_idem a)

/-- C6: key and app-identifier normalization is idempotent and case- and
whitespace-insensitive: re-normalizing a normalized key (or a normalized
app identifier) is a no-op; `" Scripts "`, `"scripts"` and the well-known
`SCRIPTS` key all normalize to `"scripts"`; and each spelling is
interchangeable as a lookup key for `AppConfig.path_override` and as an
app identifier for `VFXDirsConfig.app`. -/
theorem normalization_idempotent_insensitive (k s t : String) (a : AppConfig)
    (c : VFXDirsConfig) :
    normalize_key (normalize_key k) = normalize_key k
    ∧ (normalizeAppId s = .ok t → normalizeAppId t = .ok t)
    ∧ normalize_key " Scripts " = "scripts"
    ∧ normalize_key "scripts" = "scripts"
    ∧ normalize_key DirKey.scripts.val = "scripts"
    ∧ a.path_override " Scripts " = a.path_override "scripts"
    ∧ a.path_override "scripts" = a.path_override DirKey.scripts.val
    ∧ c.app " Scripts " = c.app "scripts" := by
  refine ⟨normCore_idem k, ?_, by decide, by decide, by decide, ?_, ?_, ?_⟩
  · intro hok
    unfold normalizeAppId at hok ⊢
    by_cases hr : pyLower (pyStrip s) = ""
    · rw [if_pos hr] at hok
      cases hok
    · rw [if_neg hr] at hok
      have ht : t = pyLower (pyStrip s) := by
        cases hok
        rfl
      subst ht
      rw [normCore_idem s, if_neg hr]
  · show a.paths (normalize_key " Scripts ") = a.paths (normalize_key "scripts")
    rw [show normalize_key " Scripts " = normalize_key "scripts" from by decide]
  · show a.paths (normalize_key "scripts") = a.paths (normalize_key DirKey.scripts.val)
    rw [show normalize_key "scripts" = normalize_key DirKey.scripts.val from by decide]
  · show (normalizeAppId " Scripts ").map c.apps = (normalizeAppId "scripts").map c.apps
    rw [show normalizeAppId " Scripts " = Except.ok "scripts" from by rfl,
      show normalizeAppId "scripts" = Except.ok "scripts" from by rfl]

/-- Witness for C6 at a concrete identifier: normalizing `"Maya "` gives
`"maya"`, and normalizing `"maya"` again is a no-op. -/
theorem normalization_idempotent_insensitive_witness :
    normalizeAppId "maya" = .ok "maya" :=
  (normalization_idempotent_insensitive "k" "Maya " "maya"
    ⟨none, ⟨none, none⟩, fun _ => none⟩ emptyConfig).2.1 (by rfl)

/-! ## Path expansion lemmas -/

/-- Scanning a run of word characters from a `$`-collecting state just
extends the accumulator. -/
theorem foldl_scanStep_word (env : String → Option String) :
    ∀ (l : List Char), l.all wordChar = true → ∀ (acc out : List Char),
      l.foldl (scanStep env) (ScanSt.dollar acc, out) = (ScanSt.dollar (acc ++ l), out)
  | [], _, acc, out => by simp
  | c :: rest, hall, acc, out => by
      rw [List.all_cons, Bool.and_eq_true] at hall
      have hcne : ¬(acc = [] ∧ c = '{') := by
        rintro ⟨-, rfl⟩
        exact absurd hall.1 (by decide)
      rw [List.foldl_cons]
      rw [show scanStep env (ScanSt.dollar acc, out) c = (ScanSt.dollar (acc ++ [c]), out) from by
        simp only [scanStep]
        rw [if_neg hcne, if_pos hall.1]]
      rw [foldl_scanStep_word env rest hall.2 (acc ++ [c]) out]
      simp

/-- A `$name` reference made of word characters whose variable is absent
from the environment expands to itself, verbatim. -/
theorem expand_unset_word_verbatim (env : String → Option String) (name : String)
    (h1 : name ≠ "") (h2 : name.data.all wordChar = true) (h3 : env name = none) :
    expandEnvVars env ("$" ++ name) = "$" ++ name := by
  have hd : ("$" ++ name).data = '$' :: name.data := by
    rw [String.data_append]
    rfl
  have hne : name.data ≠ [] := fun heq => h1 (congrArg String.mk heq)
  show (⟨expandEnvList env ("$" ++ name).data⟩ : String) = "$" ++ name
  rw [hd]
  unfold expandEnvList
  rw [List.foldl_cons]
  rw [show scanStep env (ScanSt.norm, []) '$' = (ScanSt.dollar [], []) from by
    simp [scanStep]]
  rw [foldl_scanStep_word env name.data h2 [] []]
  show (⟨[] ++ flushScan env (ScanSt.dollar ([] ++ name.data))⟩ : String) = "$" ++ name
  rw [List.nil_append, List.nil_append]
  show (⟨dollarRepl env name.data⟩ : String) = "$" ++ name
  unfold dollarRepl
  rw [if_neg hne]
  have henv : env ⟨name.data⟩ = none := h3
  rw [henv]
  show (⟨'$' :: name.data⟩ : String) = "$" ++ name
  rw [← hd]

/-- C4: for every accepted raw path string, `_parse_path` strips it,
expands a leading `~` against the home directory, then expands `$NAME` /
`$\x7bNAME\x7d` references (a reference whose variable is unset stays
verbatim, never an error), and joins a non-absolute result under the
configuration file's directory `base_dir` (the working directory plays no
part).  With environment `\x7bFOO: /opt/foo\x7d` and home `/home/u`:
`~/bar` expands to `/home/u/bar`, `$FOO/x` and `$\x7bFOO\x7d/x` both
expand to `/opt/foo/x`, and `$MISSING` stays the literal `$MISSING`. -/
theorem parse_path_expansion (env : String → Option String)
    (home base_dir w s name : String) :
    (pyStrip s ≠ "" →
      parsePath env home base_dir w (.str s) =
        .ok (let expanded := expandEnvVars env (expandUser home (pyStrip s))
             let p := pathOfString expanded
             if isAbsolutePath p then p else pathJoin base_dir p))
    ∧ (name ≠ "" → name.data.all wordChar = true → env name = none →
        expandEnvVars env ("$" ++ name) = "$" ++ name)
    ∧ expandEnvVars (fun k => if k = "FOO" then some "/opt/foo" else none)
        (expandUser "/home/u" "~/bar") = "/home/u/bar"
    ∧ expandEnvVars (fun k => if k = "FOO" then some "/opt/foo" else none)
        "$FOO/x" = "/opt/foo/x"
    ∧ expandEnvVars (fun k => if k = "FOO" then some "/opt/foo" else none)
        "$\x7bFOO\x7d/x" = "/opt/foo/x"
    ∧ expandEnvVars (fun k => if k = "FOO" then some "/opt/foo" else none)
        "$MISSING" = "$MISSING"
    ∧ parsePath (fun k => if k = "FOO" then some "/opt/foo" else none)
        "/home/u" "/cfg" "w" (.str "rel/p") = .ok "/cfg/rel/p"
    ∧ parsePath (fun k => if k = "FOO" then some "/opt/foo" else none)
        "/home/u" "/cfg" "w" (.str "~/bar") = .ok "/home/u/bar" := by
  refine ⟨?_, expand_unset_word_verbatim env name, rfl, rfl, rfl, rfl, rfl, rfl⟩
  intro h
  show (if pyStrip s = "" then Except.error (w ++ " cannot be an empty path")
        else
          let expanded := expandEnvVars env (expandUser home (pyStrip s))
          let p := pathOfString expanded
          if isAbsolutePath p then Except.ok p
          else Except.ok (pathJoin base_dir p)) = _
  rw [if_neg h]
  by_cases habs :
      isAbsolutePath (pathOfString (expandEnvVars env (expandUser home (pyStrip s)))) = true
  · simp only [habs, if_true]
  · simp only [Bool.not_eq_true] at habs
    simp only [habs, Bool.false_eq_true, if_false]

/-- Witness for C4: a relative raw value with surrounding whitespace lands
under `base_dir`, and the unset reference `$MISSING` survives verbatim. -/
theorem parse_path_expansion_witness :
    parsePath (fun k => if k = "FOO" then some "/opt/foo" else none)
      "/home/u" "/cfg" "w" (.str " rel/p ") = .ok "/cfg/rel/p"
    ∧ expandEnvVars (fun k => if k = "FOO" then some "/opt/foo" else none)
        ("$" ++ "MISSING") = "$" ++ "MISSING" := by
  constructor
  · exact ((parse_path_expansion (fun k => if k = "FOO" then some "/opt/foo" else none)
      "/home/u" "/cfg" "w" " rel/p " "MISSING").1 (by decide)).trans (by rfl)
  · exact (parse_path_expansion (fun k => if k = "FOO" then some "/opt/foo" else none)
      "/home/u" "/cfg" "w" " rel/p " "MISSING").2.1 (by decide) (by decide) (by rfl)

/-! ## Context platform branching -/

/-- C7: `Context.from_env` branches on the OS tag: on `linux` with
`XDG_CONFIG_HOME` unset, config-home is `<home>/.config`; on `windows`
with `APPDATA` set to `C:\Users\u\AppData\Roaming`, config-home is exactly
that value; on `macos`, config-home and data-home are both
`<home>/Library/Application Support` (shown at home `/home/u`). -/
theorem context_platform_branching (env : String → Option String)
    (cwdO : Option String) (ph pc td : String) :
    (env "XDG_CONFIG_HOME" = none →
      (Context.from_env env .linux (some "/home/u") cwdO ph pc td).config_home =
        "/home/u/.config")
    ∧ (env "APPDATA" = some "C:\\Users\\u\\AppData\\Roaming" →
      (Context.from_env env .windows (some "/home/u") cwdO ph pc td).config_home =
        "C:\\Users\\u\\AppData\\Roaming")
    ∧ (Context.from_env env .macos (some "/home/u") cwdO ph pc td).config_home =
        "/home/u/Library/Application Support"
    ∧ (Context.from_env env .macos (some "/home/u") cwdO ph pc td).data_home =
        "/home/u/Library/Application Support" := by
  refine ⟨?_, ?_, rfl, rfl⟩
  · intro h
    show pathOfString ((env "XDG_CONFIG_HOME").getD (pathJoin "/home/u" ".config")) = _
    rw [h]
    rfl
  · intro h
    show (match env "APPDATA" with
          | some v =>
              if v ≠ "" then pathOfString v
              else pathJoin (pathJoin "/home/u" "AppData") "Roaming"
          | none => pathJoin (pathJoin "/home/u" "AppData") "Roaming") = _
    rw [h]
    rfl

/-- Witness for C7 at a concrete environment carrying only `APPDATA`. -/
theorem context_platform_branching_witness :
    (Context.from_env
      (fun k => if k = "APPDATA" then some "C:\\Users\\u\\AppData\\Roaming" else none)
      .linux (some "/home/u") none "/root" "/cwd" "/tmp").config_home = "/home/u/.config"
    ∧ (Context.from_env
      (fun k => if k = "APPDATA" then some "C:\\Users\\u\\AppData\\Roaming" else none)
      .windows (some "/home/u") none "/root" "/cwd" "/tmp").config_home =
        "C:\\Users\\u\\AppData\\Roaming" := by
  constructor
  · exact (context_platform_branching
      (fun k => if k = "APPDATA" then some "C:\\Users\\u\\AppData\\Roaming" else none)
      none "/root" "/cwd" "/tmp").1 (by rfl)
  · exact (context_platform_branching
      (fun k => if k = "APPDATA" then some "C:\\Users\\u\\AppData\\Roaming" else none)
      none "/root" "/cwd" "/tmp").2.1 (by rfl)

/-- C10: a set-but-empty environment value is treated as absent on the
windows tag (`APPDATA`, `LOCALAPPDATA` and each Program-Files variable are
used only `if value`), so config-home falls back to
`<home>/AppData/Roaming`; on the linux tag a set-but-empty
`XDG_CONFIG_HOME` is honored as-is (`dict.get` with a default), so
config-home is the path built from the empty string (`"."`), not
`<home>/.config`. -/
theorem context_empty_env_values (env : String → Option String)
    (cwdO : Option String) (ph pc td : String) :
    (env "APPDATA" = some "" →
      (Context.from_env env .windows (some "/home/u") cwdO ph pc td).config_home =
        "/home/u/AppData/Roaming")
    ∧ (env "LOCALAPPDATA" = some "" →
      (Context.from_env env .windows (some "/home/u") cwdO ph pc td).cache_home =
        "/home/u/AppData/Local")
    ∧ (env "ProgramFiles" = some "" → env "ProgramW6432" = some "" →
        env "ProgramFiles(x86)" = some "" →
      (Context.from_env env .windows (some "/home/u") cwdO ph pc td).install_roots =
        ["C:/Program Files"])
    ∧ (env "XDG_CONFIG_HOME" = some "" →
      (Context.from_env env .linux (some "/home/u") cwdO ph pc td).config_home =
        pathOfString ""
      ∧ (Context.from_env env .linux (some "/home/u") cwdO ph pc td).config_home = "."
      ∧ (Context.from_env env .linux (some "/home/u") cwdO ph pc td).config_home ≠
        "/home/u/.config") := by
  refine ⟨?_, ?_, ?_, ?_⟩
  · intro h
    show (match env "APPDATA" with
          | some v =>
              if v ≠ "" then pathOfString v
              else pathJoin (pathJoin "/home/u" "AppData") "Roaming"
          | none => pathJoin (pathJoin "/home/u" "AppData") "Roaming") = _
    rw [h]
    rfl
  · intro h
    show (match env "LOCALAPPDATA" with
          | some v =>
              if v ≠ "" then pathOfString v
              else pathJoin (pathJoin "/home/u" "AppData") "Local"
          | none => pathJoin (pathJoin "/home/u" "AppData") "Local") = _
    rw [h]
    rfl
  · intro h1 h2 h3
    show windowsInstallRoots env = _
    simp [windowsInstallRoots, h1, h2, h3]
  · intro h
    have hch : (Context.from_env env .linux (some "/home/u") cwdO ph pc td).config_home =
        pathOfString "" := by
      show pathOfString ((env "XDG_CONFIG_HOME").getD (pathJoin "/home/u" ".config")) = _
      rw [h]
      rfl
    refine ⟨hch, hch.trans (by rfl), ?_⟩
    rw [hch]
    decide

/-- Witness for C10 at the environment in which every variable is set to
the empty string. -/
theorem context_empty_env_values_witness :
    (Context.from_env (fun _ => some "") .windows (some "/home/u") none
      "/root" "/cwd" "/tmp").config_home = "/home/u/AppData/Roaming"
    ∧ (Context.from_env (fun _ => some "") .windows (some "/home/u") none
      "/root" "/cwd" "/tmp").cache_home = "/home/u/AppData/Local"
    ∧ (Context.from_env (fun _ => some "") .windows (some "/home/u") none
      "/root" "/cwd" "/tmp").install_roots = ["C:/Program Files"]
    ∧ (Context.from_env (fun _ => some "") .linux (some "/home/u") none
      "/root" "/cwd" "/tmp").config_home = "." := by
  refine ⟨?_, ?_, ?_, ?_⟩
  · exact (context_empty_env_values (fun _ => some "") none "/root" "/cwd" "/tmp").1 rfl
  · exact (context_empty_env_values (fun _ => some "") none "/root" "/cwd" "/tmp").2.1 rfl
  · exact (context_empty_env_values (fun _ => some "") none "/root" "/cwd" "/tmp").2.2.1
      rfl rfl rfl
  · exact ((context_empty_env_values (fun _ => some "") none "/root" "/cwd" "/tmp").2.2.2
      rfl).2.1

/-! ## Loading behaviour -/

/-- C8: `VFXDirsConfig.load` returns `None` (acting as "no overrides":
merging with a `None` higher is the identity) when the file does not
exist, while a file that exists but fails to decode or to validate always
propagates the error and is never silently ignored. -/
theorem load_missing_vs_failing (fs : String → Option String)
    (tomlLoads : String → Except String Toml) (env : String → Option String)
    (home path : String) (c : VFXDirsConfig) :
    (fs (pathOfString path) = none →
      loadConfig fs tomlLoads env home path = .ok none)
    ∧ (∀ text e, fs (pathOfString path) = some text → tomlLoads text = .error e →
        loadConfig fs tomlLoads env home path = .error e)
    ∧ (∀ text d e, fs (pathOfString path) = some text → tomlLoads text = .ok d →
        fromMapping env home (pathParent (pathOfString path)) d = .error e →
        loadConfig fs tomlLoads env home path = .error e)
    ∧ c.merged none = c := by
  refine ⟨?_, ?_, ?_, rfl⟩
  · intro h
    show (match fs (pathOfString path) with
          | none => Except.ok none
          | some _ => (fromFile fs tomlLoads env home path).map some) =
      Except.ok none
    rw [h]
  · intro text e hf ht
    show (match fs (pathOfString path) with
          | none => Except.ok none
          | some _ => (fromFile fs tomlLoads env home path).map some) =
      Except.error e
    rw [hf]
    show ((match fs (pathOfString path) with
          | none => Except.error "file does not exist"
          | some text => do
              let data ← tomlLoads text
              fromMapping env home (pathParent (pathOfString path)) data) :
        Except String VFXDirsConfig).map some = Except.error e
    rw [hf]
    show ((do
        let data ← tomlLoads text
        fromMapping env home (pathParent (pathOfString path)) data) :
      Except String VFXDirsConfig).map some = Except.error e
    rw [show (tomlLoads text) = Except.error e from ht]
    rfl
  · intro text d e hf ht hm
    show (match fs (pathOfString path) with
          | none => Except.ok none
          | some _ => (fromFile fs tomlLoads env home path).map some) =
      Except.error e
    rw [hf]
    show ((match fs (pathOfString path) with
          | none => Except.error "file does not exist"
          | some text => do
              let data ← tomlLoads text
              fromMapping env home (pathParent (pathOfString path)) data) :
        Except String VFXDirsConfig).map some = Except.error e
    rw [hf]
    show ((do
        let data ← tomlLoads text
        fromMapping env home (pathParent (pathOfString path)) data) :
      Except String VFXDirsConfig).map some = Except.error e
    rw [show (tomlLoads text) = Except.ok d from ht]
    show ((fromMapping env home (pathParent (pathOfString path)) d) :
      Except String VFXDirsConfig).map some = Except.error e
    rw [hm]
    rfl

/-- Witness for C8: a filesystem holding one undecodable file; loading a
missing path yields `ok none` and loading the bad file propagates the
decoder's error. -/
theorem load_missing_vs_failing_witness :
    loadConfig (fun p => if p = "/cfg/config.toml" then some "bad" else none)
      (fun s => if s = "bad" then .error "boom" else .ok (.table []))
      (fun _ => none) "/home/u" "/nonexistent" = .ok none
    ∧ loadConfig (fun p => if p = "/cfg/config.toml" then some "bad" else none)
      (fun s => if s = "bad" then .error "boom" else .ok (.table []))
      (fun _ => none) "/home/u" "/cfg/config.toml" = .error "boom" := by
  constructor
  · exact (load_missing_vs_failing
      (fun p => if p = "/cfg/config.toml" then some "bad" else none)
      (fun s => if s = "bad" then .error "boom" else .ok (.table []))
      (fun _ => none) "/home/u" "/nonexistent" emptyConfig).1 (by rfl)
  · exact (load_missing_vs_failing
      (fun p => if p = "/cfg/config.toml" then some "bad" else none)
      (fun s => if s = "bad" then .error "boom" else .ok (.table []))
      (fun _ => none) "/home/u" "/cfg/config.toml" emptyConfig).2.1
      "bad" "boom" (by rfl) (by rfl)

/-! ## Parsing: acceptance implies structural validity -/

/-- Reducing a bind whose left side is a success. -/
theorem exceptBind_ok {ε α β : Type} (x : α) (f : α → Except ε β) :
    (Except.ok (ε := ε) x >>= f) = f x := rfl

/-- A `_parse_path` success means the raw value was a string that is
nonempty after trimming. -/
theorem parsePath_ok_pathFieldOK (env : String → Option String)
    (home base_dir w : String) (raw : Toml) (p : String)
    (h : parsePath env home base_dir w raw = .ok p) : pathFieldOK raw = true := by
  cases raw with
  | str s =>
      simp only [parsePath] at h
      by_cases hs : pyStrip s = ""
      · rw [if_pos hs] at h
        exact Except.noConfusion h
      · simp [pathFieldOK, hs]
  | table es => exact Except.noConfusion h
  | pynone => exact Except.noConfusion h
  | other n b => exact Except.noConfusion h

/-- A successful optional path field was absent, `None`, or a valid path
string. -/
theorem parseOptPathField_ok (env : String → Option String)
    (home base_dir w : String) (v : Option Toml) (r : Option String)
    (h : parseOptPathField env home base_dir w v = .ok r) :
    optPathFieldOK v = true := by
  cases v with
  | none => rfl
  | some t =>
      cases t with
      | pynone => rfl
      | str s =>
          cases hp : parsePath env home base_dir w (.str s) with
          | error e =>
              rw [show parseOptPathField env home base_dir w (some (.str s)) =
                (parsePath env home base_dir w (.str s)).map some from rfl, hp] at h
              exact Except.noConfusion h
          | ok p => exact parsePath_ok_pathFieldOK env home base_dir w _ p hp
      | table es => exact Except.noConfusion h
      | other n b => exact Except.noConfusion h

/-- A successful `paths` loop means every raw value was a valid path
string. -/
theorem parsePathEntries_ok (env : String → Option String)
    (home base_dir appId : String) :
    ∀ (pes : List (String × Toml)) (acc : String → Option String)
      (f : String → Option String),
      parsePathEntries env home base_dir appId pes acc = .ok f →
      pes.all (fun e => pathFieldOK e.2) = true
  | [], _, _, _ => rfl
  | (k, v) :: rest, acc, f, h => by
      unfold parsePathEntries at h
      cases hp : parsePath env home base_dir ("apps." ++ appId ++ ".paths." ++ k) v with
      | error e =>
          rw [hp] at h
          exact Except.noConfusion h
      | ok p =>
          rw [hp] at h
          rw [List.all_cons, parsePath_ok_pathFieldOK _ _ _ _ _ _ hp,
            Bool.true_and]
          exact parsePathEntries_ok env home base_dir appId rest _ f h

/-- A successful `install` block over an `or {}`-coerced value means the
original value was falsy or a table with valid optional path fields. -/
theorem parseInstall_pyOr_ok (env : String → Option String)
    (home base_dir appId : String) (v : Toml) (i : InstallOverride)
    (h : parseInstall env home base_dir appId (pyOrEmptyTable v) = .ok i) :
    installStructOK v = true := by
  unfold installStructOK
  by_cases htr : v.isTruthy = true
  · rw [if_pos htr]
    have heq : pyOrEmptyTable v = v := by
      unfold pyOrEmptyTable
      rw [if_pos htr]
    rw [heq] at h
    cases v with
    | str s => exact Except.noConfusion h
    | pynone => exact Except.noConfusion h
    | other n b => exact Except.noConfusion h
    | table ies =>
        simp only [parseInstall] at h
        cases hr : parseOptPathField env home base_dir
            ("apps." ++ appId ++ ".install.root") (tget ies "root") with
        | error e => rw [hr] at h; exact Except.noConfusion h
        | ok ro =>
            rw [hr, exceptBind_ok] at h
            cases hx : parseOptPathField env home base_dir
                ("apps." ++ appId ++ ".install.executable") (tget ies "executable") with
            | error e => rw [hx] at h; exact Except.noConfusion h
            | ok ex =>
                show (optPathFieldOK (tget ies "root") &&
                  optPathFieldOK (tget ies "executable")) = true
                rw [parseOptPathField_ok _ _ _ _ _ _ hr,
                  parseOptPathField_ok _ _ _ _ _ _ hx]
                rfl
  · rw [if_neg htr]

/-- A successful `paths` block over an `or {}`-coerced value means the
original value was falsy or a table of valid path values. -/
theorem parsePathsTbl_pyOr_ok (env : String → Option String)
    (home base_dir appId : String) (v : Toml) (f : String → Option String)
    (h : parsePathsTbl env home base_dir appId (pyOrEmptyTable v) = .ok f) :
    pathsStructOK v = true := by
  unfold pathsStructOK
  by_cases htr : v.isTruthy = true
  · rw [if_pos htr]
    have heq : pyOrEmptyTable v = v := by
      unfold pyOrEmptyTable
      rw [if_pos htr]
    rw [heq] at h
    cases v with
    | str s => exact Except.noConfusion h
    | pynone => exact Except.noConfusion h
    | other n b => exact Except.noConfusion h
    | table pes =>
        simp only [parsePathsTbl] at h
        exact parsePathEntries_ok env home base_dir appId pes _ f h
  · rw [if_neg htr]

/-- A successful per-app parse means the app entry satisfies the spec's
structural validity (with falsy `install` / `paths` acting as absent). -/
theorem parseOneApp_ok (env : String → Option String)
    (home base_dir appId : String) (t : Toml) (a : AppConfig)
    (h : parseOneApp env home base_dir appId t = .ok a) : appStructOK t = true := by
  cases t with
  | str s => exact Except.noConfusion h
  | pynone => exact Except.noConfusion h
  | other n b => exact Except.noConfusion h
  | table tbl =>
      simp only [parseOneApp] at h
      cases hb : parseOptPathField env home base_dir
          ("apps." ++ appId ++ ".base") (tget tbl "base") with
      | error e => rw [hb] at h; exact Except.noConfusion h
      | ok base =>
          rw [hb, exceptBind_ok] at h
          cases hi : parseInstall env home base_dir appId
              (pyOrEmptyTable ((tget tbl "install").getD (.table []))) with
          | error e => rw [hi] at h; exact Except.noConfusion h
          | ok inst =>
              rw [hi, exceptBind_ok] at h
              cases hp : parsePathsTbl env home base_dir appId
                  (pyOrEmptyTable ((tget tbl "paths").getD (.table []))) with
              | error e => rw [hp] at h; exact Except.noConfusion h
              | ok f =>
                  show ((optPathFieldOK (tget tbl "base") &&
                    installStructOK ((tget tbl "install").getD (.table []))) &&
                      pathsStructOK ((tget tbl "paths").getD (.table []))) = true
                  rw [parseOptPathField_ok _ _ _ _ _ _ hb,
                    parseInstall_pyOr_ok _ _ _ _ _ _ hi,
                    parsePathsTbl_pyOr_ok _ _ _ _ _ _ hp]
                  rfl

/-- A successful apps loop means every app entry is structurally valid. -/
theorem parseApps_ok (env : String → Option String) (home base_dir : String) :
    ∀ (appEs : List (String × Toml)) (acc : String → Option AppConfig)
      (f : String → Option AppConfig),
      parseApps env home base_dir appEs acc = .ok f →
      appEs.all (fun e => appStructOK e.2) = true
  | [], _, _, _ => rfl
  | (rid, t) :: rest, acc, f, h => by
      unfold parseApps at h
      cases hid : normalizeAppId rid with
      | error e => rw [hid] at h; exact Except.noConfusion h
      | ok appId =>
          rw [hid, exceptBind_ok] at h
          cases hap : parseOneApp env home base_dir appId t with
          | error e => rw [hap] at h; exact Except.noConfusion h
          | ok a =>
              rw [hap, exceptBind_ok] at h
              rw [List.all_cons, parseOneApp_ok _ _ _ _ _ _ hap, Bool.true_and]
              exact parseApps_ok env home base_dir rest _ f h

/-! ## Structural rejection (C5) -/

/-- Counterexample to C5 as stated: the input whose `install` is the
non-table value `""` is accepted by `from_mapping` (the code coerces the
falsy value with `install_tbl or {}` instead of raising). -/
theorem from_mapping_falsy_install_accepted :
    exceptIsOk (fromMapping (fun _ => none) "/home/u" "/cfg"
      (.table [("apps", .table [("a", .table [("install", .str "")])])])) = true := rfl

/-- C5 (amended): `from_mapping` accepts an input only if it is free of
the listed structural violations — with a `None` value in place of
`apps` treated as an absent `apps` table, and falsy values in place of
the `install` or `paths` sub-tables treated as absent tables, rather
than errors — and each remaining violation raises a
malformed-configuration error naming the exact offending field, as the
concrete rejection cases show; the `apps = None` carve-out is itself
exhibited by an accepted input. -/
theorem from_mapping_structural_errors (env : String → Option String)
    (home base_dir : String) :
    (∀ (data : Toml) (cfg : VFXDirsConfig),
      fromMapping env home base_dir data = .ok cfg →
      specStructurallyValid data = true)
    ∧ fromMapping env home base_dir (.table [("apps", .pynone)]) = .ok emptyConfig
    ∧ fromMapping env home base_dir (.other "list" true) =
        .error "Config root must be a TOML table or object"
    ∧ fromMapping env home base_dir (.table [("apps", .str "x")]) =
        .error "`apps` must be a TOML table or object"
    ∧ fromMapping env home base_dir (.table [("apps", .table [("a", .str "x")])]) =
        .error "`apps.a` must be a TOML table or object"
    ∧ fromMapping env home base_dir
        (.table [("apps", .table [("a", .table [("install", .str "x")])])]) =
        .error "`apps.a.install` must be a TOML table or object"
    ∧ fromMapping env home base_dir
        (.table [("apps", .table [("a", .table [("paths", .str "x")])])]) =
        .error "`apps.a.paths` must be a TOML table or object"
    ∧ fromMapping env home base_dir
        (.table [("apps", .table
          [("a", .table [("paths", .table [("cache", .str "  ")])])])]) =
        .error "apps.a.paths.cache cannot be an empty path"
    ∧ fromMapping env home base_dir
        (.table [("apps", .table [("a", .table [("base", .other "int" true)])])]) =
        .error "apps.a.base must be a string path but got int" := by
  refine ⟨?_, rfl, rfl, rfl, rfl, rfl, rfl, rfl, rfl⟩
  intro data cfg h
  cases data with
  | str s => exact Except.noConfusion h
  | pynone => exact Except.noConfusion h
  | other n b => exact Except.noConfusion h
  | table es =>
      simp only [fromMapping] at h
      cases hga : (tget es "apps").getD (.table []) with
      | pynone => simp [specStructurallyValid, hga]
      | str s =>
          simp only [hga] at h
          exact Except.noConfusion h
      | other n b =>
          simp only [hga] at h
          exact Except.noConfusion h
      | table appEs =>
          simp only [hga] at h
          cases hpa : parseApps env home base_dir appEs (fun _ => none) with
          | error e =>
              rw [hpa] at h
              exact Except.noConfusion h
          | ok f =>
              have := parseApps_ok env home base_dir appEs _ f hpa
              simp [specStructurallyValid, hga, this]

/-- Witness for the amended C5 at the empty table, which parses and is
structurally valid. -/
theorem from_mapping_structural_errors_witness :
    specStructurallyValid (.table []) = true :=
  (from_mapping_structural_errors (fun _ => none) "/home/u" "/cfg").1
    (.table []) ⟨fun _ => none⟩ rfl

/-! ## Frame properties of the imperative merge (C9) -/

namespace Imp

/-- Allocation leaves every existing cell readable unchanged. -/
theorem hread_halloc (h : Heap) (c : Cell) (r : Nat) (hr : r < h.length) :
    hread (halloc h c).2 r = hread h r := by
  unfold hread halloc
  exact List.get?_append hr

/-- Writing one reference leaves every other reference unchanged. -/
theorem hread_hwrite_ne (h : Heap) (r1 : Nat) (c : Cell) (r : Nat) (hr : r ≠ r1) :
    hread (hwrite h r1 c) r = hread h r := by
  unfold hread hwrite
  exact List.get?_set_ne c h (fun he => hr he.symm)

/-- `AppConfig.merged` only allocates fresh dicts and writes to them: every
pre-existing cell is unchanged, and the heap only grows. -/
theorem mergedI_frame (h : Heap) (a b m : AppConfigI) (h' : Heap)
    (hm : AppConfigI.mergedI h a b = some (m, h')) :
    (∀ r, r < h.length → hread h' r = hread h r) ∧ h.length ≤ h'.length := by
  unfold AppConfigI.mergedI at hm
  cases hra : hread h a.pathsRef with
  | none => simp [hra] at hm
  | some ca =>
      cases ca with
      | appsCell d => simp [hra] at hm
      | pathsCell sp =>
          cases hrb : hread h b.pathsRef with
          | none => simp [hra, hrb] at hm
          | some cb =>
              cases cb with
              | appsCell d => simp [hra, hrb] at hm
              | pathsCell hp =>
                  simp only [hra, hrb, halloc, hwrite] at hm
                  cases hm
                  constructor
                  · intro r hr
                    show (((h ++ [Cell.pathsCell sp]).set h.length
                        (Cell.pathsCell (dupdate sp hp))) ++
                        [Cell.pathsCell (normPathKeys (dupdate sp hp))]).get? r = _
                    rw [List.get?_append
                        (by simp [List.length_set]; omega),
                      List.get?_set_ne _ _ (by omega),
                      List.get?_append (by omega)]
                    rfl
                  · show h.length ≤ (((h ++ [Cell.pathsCell sp]).set h.length
                      (Cell.pathsCell (dupdate sp hp))) ++
                      [Cell.pathsCell (normPathKeys (dupdate sp hp))]).length
                    simp [List.length_set]

/-- The merge loop writes only the freshly allocated merged dict (and the
cells `AppConfig.merged` itself allocates): every other pre-existing cell
is unchanged, and the heap only grows. -/
theorem appsLoop_frame :
    ∀ (l : List (String × AppConfigI)) (h : Heap) (r1 : Nat) (h' : Heap),
      appsLoop h r1 l = some h' →
      (∀ r, r < h.length → r ≠ r1 → hread h' r = hread h r) ∧
        h.length ≤ h'.length
  | [], h, r1, h', hl => by
      cases hl
      exact ⟨fun r _ _ => rfl, Nat.le_refl _⟩
  | (appId, hApp) :: rest, h, r1, h', hl => by
      unfold appsLoop at hl
      cases hc : hread h r1 with
      | none => simp [hc] at hl
      | some cc =>
          cases cc with
          | pathsCell d => simp [hc] at hl
          | appsCell cur =>
              simp only [hc] at hl
              cases hd : dlookup cur appId with
              | none =>
                  simp only [hd] at hl
                  have ih := appsLoop_frame rest
                    (hwrite h r1 (.appsCell (dinsert cur appId hApp))) r1 h' hl
                  constructor
                  · intro r hr hne
                    rw [ih.1 r (by simpa [hwrite, List.length_set] using hr) hne]
                    exact hread_hwrite_ne h r1 _ r hne
                  · have := ih.2
                    simpa [hwrite, List.length_set] using this
              | some lApp =>
                  simp only [hd] at hl
                  cases hmg : AppConfigI.mergedI h lApp hApp with
                  | none => simp [hmg] at hl
                  | some mh =>
                      obtain ⟨m2, h2⟩ := mh
                      simp only [hmg] at hl
                      have hfr := mergedI_frame h lApp hApp m2 h2 hmg
                      cases hr2 : hread h2 r1 with
                      | none => simp [hr2] at hl
                      | some cc2 =>
                          cases cc2 with
                          | pathsCell d => simp [hr2] at hl
                          | appsCell cur2 =>
                              simp only [hr2] at hl
                              have ih := appsLoop_frame rest
                                (hwrite h2 r1 (.appsCell (dinsert cur2 appId m2)))
                                r1 h' hl
                              constructor
                              · intro r hr hne
                                have hrlt2 : r < h2.length :=
                                  Nat.lt_of_lt_of_le hr hfr.2
                                rw [ih.1 r
                                    (by simpa [hwrite, List.length_set] using hrlt2) hne]
                                rw [hread_hwrite_ne h2 r1 _ r hne]
                                exact hfr.1 r hr
                              · have h1le : h.length ≤ h2.length := hfr.2
                                have h2le := ih.2
                                rw [hwrite, List.length_set] at h2le
                                omega

end Imp

/-- C9: the tree merge never mutates its inputs.  In the heap model every
cell that existed before `lower.merged(higher)` reads back unchanged
afterwards — in particular every dict reachable from `lower` or `higher` —
and the result is newly constructed: its `apps` dict reference is fresh
(allocated at or above the pre-merge heap size). -/
theorem merged_never_mutates (h : Imp.Heap) (lower higher : Imp.ConfigI)
    (res : Imp.ConfigI) (h' : Imp.Heap)
    (hm : Imp.ConfigI.mergedI h lower (some higher) = some (res, h')) :
    (∀ r, r < h.length → Imp.hread h' r = Imp.hread h r) ∧
      h.length ≤ res.appsRef := by
  unfold Imp.ConfigI.mergedI at hm
  cases hra : Imp.hread h lower.appsRef with
  | none => simp [hra] at hm
  | some ca =>
      cases ca with
      | pathsCell d => simp [hra] at hm
      | appsCell sa =>
          cases hrb : Imp.hread h higher.appsRef with
          | none => simp [hra, hrb] at hm
          | some cb =>
              cases cb with
              | pathsCell d => simp [hra, hrb] at hm
              | appsCell ha =>
                  simp only [hra, hrb, Imp.halloc] at hm
                  cases hal : Imp.appsLoop (h ++ [Imp.Cell.appsCell sa]) h.length ha with
                  | none => simp [hal] at hm
                  | some h2 =>
                      simp only [hal] at hm
                      have hfr := Imp.appsLoop_frame ha
                        (h ++ [Imp.Cell.appsCell sa]) h.length h2 hal
                      have hlen2 : h.length + 1 ≤ h2.length := by
                        have := hfr.2
                        simpa using this
                      cases hr2 : Imp.hread h2 h.length with
                      | none => simp [hr2] at hm
                      | some cc2 =>
                          cases cc2 with
                          | pathsCell d => simp [hr2] at hm
                          | appsCell finalApps =>
                              simp only [hr2] at hm
                              cases hna : Imp.normAppIds finalApps with
                              | none => simp [hna] at hm
                              | some nd =>
                                  simp only [hna] at hm
                                  cases hm
                                  constructor
                                  · intro r hr
                                    have hrlt2 : r < h2.length := by omega
                                    show (h2 ++ [Imp.Cell.appsCell nd]).get? r = _
                                    rw [List.get?_append hrlt2]
                                    have hstep := hfr.1 r (by simp; omega) (by omega)
                                    rw [show (h2.get? r : Option Imp.Cell) =
                                        Imp.hread h2 r from rfl, hstep]
                                    exact List.get?_append hr
                                  · show h.length ≤ h2.length
                                    omega

/-- Witness for C9: merging two one-app configurations (lower's app
carries `{cache: /a}`, higher's `{logs: /b}`) leaves the lower paths dict
at reference 0 unchanged and returns a config whose apps dict is a fresh
reference. -/
theorem merged_never_mutates_witness :
    Imp.hread
      [Imp.Cell.pathsCell [("cache", "/a")],
       Imp.Cell.appsCell [("a", Imp.AppConfigI.mk none ⟨none, none⟩ 0)],
       Imp.Cell.pathsCell [("logs", "/b")],
       Imp.Cell.appsCell [("a", Imp.AppConfigI.mk none ⟨none, none⟩ 2)],
       Imp.Cell.appsCell [("a", Imp.AppConfigI.mk none ⟨none, none⟩ 6)],
       Imp.Cell.pathsCell [("cache", "/a"), ("logs", "/b")],
       Imp.Cell.pathsCell [("cache", "/a"), ("logs", "/b")],
       Imp.Cell.appsCell [("a", Imp.AppConfigI.mk none ⟨none, none⟩ 6)]] 0 =
    Imp.hread
      [Imp.Cell.pathsCell [("cache", "/a")],
       Imp.Cell.appsCell [("a", Imp.AppConfigI.mk none ⟨none, none⟩ 0)],
       Imp.Cell.pathsCell [("logs", "/b")],
       Imp.Cell.appsCell [("a", Imp.AppConfigI.mk none ⟨none, none⟩ 2)]] 0 :=
  (merged_never_mutates
    [Imp.Cell.pathsCell [("cache", "/a")],
     Imp.Cell.appsCell [("a", Imp.AppConfigI.mk none ⟨none, none⟩ 0)],
     Imp.Cell.pathsCell [("logs", "/b")],
     Imp.Cell.appsCell [("a", Imp.AppConfigI.mk none ⟨none, none⟩ 2)]]
    ⟨1⟩ ⟨3⟩ ⟨7⟩
    [Imp.Cell.pathsCell [("cache", "/a")],
     Imp.Cell.appsCell [("a", Imp.AppConfigI.mk none ⟨none, none⟩ 0)],
     Imp.Cell.pathsCell [("logs", "/b")],
     Imp.Cell.appsCell [("a", Imp.AppConfigI.mk none ⟨none, none⟩ 2)],
     Imp.Cell.appsCell [("a", Imp.AppConfigI.mk none ⟨none, none⟩ 6)],
     Imp.Cell.pathsCell [("cache", "/a"), ("logs", "/b")],
     Imp.Cell.pathsCell [("cache", "/a"), ("logs", "/b")],
     Imp.Cell.appsCell [("a", Imp.AppConfigI.mk none ⟨none, none⟩ 6)]]
    (by rfl)).1 0 (by decide)
